import Mathlib

/-!
Verification of the 3D force-directed layout engine of ChemReact3D
(`src/services/layoutService.ts`).

The source file contains two variants of `autoLayoutMolecule` that share the
same algorithmic skeleton and differ only in tuning constants, in the early
exit condition of the simulation loop, and in whether the result is recentered.
Both variants are embedded here through a single parameterized core
(`autoLayout`) instantiated at `paramsV1` (the first variant, lines 11-210)
and `paramsV2` (the second variant, lines 221-419).

JavaScript numbers are modelled as real numbers.  `Math.random()` is modelled
as an explicit stream `rand : Nat -> Real` of samples, consumed in program
order (three samples per atom on the micro-jitter branch, none on the
scramble branch).  `a.z || 0` coincides with `a.z` over the reals (it only
differs from `z` on NaN, which has no real counterpart).
-/

open Classical

namespace ChemReact3D

/-- Atom of a molecular graph, mirroring `AtomData` of `src/types.ts`. -/
structure AtomData where
  id : String
  element : String
  x : ℝ
  y : ℝ
  z : ℝ

/-- Bond of a molecular graph, mirroring `BondData` of `src/types.ts`. -/
structure BondData where
  id : String
  sourceAtomId : String
  targetAtomId : String
  order : ℕ
deriving DecidableEq

/-- Molecular graph, mirroring `Molecule` of `src/types.ts`. -/
structure Molecule where
  id : String
  name : String
  atoms : List AtomData
  bonds : List BondData
  formula : Option String

/-- Simulation node: an atom augmented with velocity and force accumulators,
as built by the `nodes` map in `autoLayoutMolecule`. -/
structure Node where
  id : String
  element : String
  x : ℝ
  y : ℝ
  z : ℝ
  vx : ℝ
  vy : ℝ
  vz : ℝ
  fx : ℝ
  fy : ℝ
  fz : ℝ

/-- Default node used for (never occurring in-range) list lookups. -/
def defaultNode : Node :=
  { id := "", element := "", x := 0, y := 0, z := 0,
    vx := 0, vy := 0, vz := 0, fx := 0, fy := 0, fz := 0 }

instance : Inhabited Node := ⟨defaultNode⟩

/-- The tuning constants of one variant of `autoLayoutMolecule`, together with
its loop exit predicate and whether it recenters the final structure. -/
structure LayoutParams where
  iterations : ℕ
  kRepulsion : ℝ
  kSpring : ℝ
  damping : ℝ
  lengthSingle : ℝ
  lengthDouble : ℝ
  lengthTriple : ℝ
  epsSq : ℝ
  gravity : ℝ
  temp0 : ℝ
  cooling : ℝ
  radius : ℝ
  jitterScale : ℝ
  stop : ℝ → ℝ → Prop
  recenter : Bool

/-- Constants of the first variant (`layoutService.ts` lines 11-210):
600 iterations, repulsion 80, spring 0.5, bond lengths 3.5/3.0/2.5,
squared-distance floor 0.01, gravity 0.01, temperature 20 cooled by 0.95,
scramble radius 5, jitter amplitude 0.2, break once `temperature < 0.1`
and `maxVelSq < 0.01`, no final recentering. -/
noncomputable def paramsV1 : LayoutParams where
  iterations := 600
  kRepulsion := 80.0
  kSpring := 0.5
  damping := 0.85
  lengthSingle := 3.5
  lengthDouble := 3.0
  lengthTriple := 2.5
  epsSq := 0.01
  gravity := 0.01
  temp0 := 20.0
  cooling := 0.95
  radius := 5.0
  jitterScale := 0.2
  stop := fun temperature maxVelSq => temperature < 0.1 ∧ maxVelSq < 0.01
  recenter := false

/-- Constants of the second variant (`layoutService.ts` lines 221-419):
800 iterations, repulsion 150, spring 1.2, bond lengths 3.0/2.8/2.5,
squared-distance floor 0.1, gravity 0.005, temperature 10 cooled by 0.97,
scramble radius 4, jitter amplitude 0.01, break once `temperature < 0.05`
(the velocity is not consulted), final recentering to the centroid. -/
noncomputable def paramsV2 : LayoutParams where
  iterations := 800
  kRepulsion := 150.0
  kSpring := 1.2
  damping := 0.85
  lengthSingle := 3.0
  lengthDouble := 2.8
  lengthTriple := 2.5
  epsSq := 0.1
  gravity := 0.005
  temp0 := 10.0
  cooling := 0.97
  radius := 4.0
  jitterScale := 0.01
  stop := fun temperature _ => temperature < 0.05
  recenter := true

/-- `a.z || 0`; over the reals this is the z coordinate itself. -/
def zCoord (a : AtomData) : ℝ := a.z

/-- `Math.max(...zValues)` over a non-empty list (the engine only evaluates
it after the empty-graph early return). -/
def listMax : List ℝ → ℝ
  | [] => 0
  | v :: vs => vs.foldl max v

/-- `Math.min(...zValues)` over a non-empty list. -/
def listMin : List ℝ → ℝ
  | [] => 0
  | v :: vs => vs.foldl min v

/-- `zRange = zMax - zMin` computed over `molecule.atoms.map(a => a.z || 0)`. -/
def zRangeOf (mol : Molecule) : ℝ :=
  listMax (mol.atoms.map zCoord) - listMin (mol.atoms.map zCoord)

/-- `needsScramble = molecule.atoms.length > 2 && zRange < 0.5`. -/
def needsScramble (mol : Molecule) : Prop :=
  2 < mol.atoms.length ∧ zRangeOf mol < 0.5

/-- The scramble branch of the node initializer: golden-angle spherical
scattering (`theta = index * 2.39996`, `y_sphere = 1 - (index/(n-1))*2`,
`radius_at_y = sqrt(1 - y_sphere^2)`, scaled by the explosion radius). -/
noncomputable def scrambledNode (p : LayoutParams) (mol : Molecule) (i : ℕ)
    (a : AtomData) : Node :=
  let theta : ℝ := (i : ℝ) * 2.39996
  let ySphere : ℝ := 1 - ((i : ℝ) / ((mol.atoms.length : ℝ) - 1)) * 2
  let radiusAtY : ℝ := Real.sqrt (1 - ySphere * ySphere)
  { id := a.id, element := a.element,
    x := Real.cos theta * radiusAtY * p.radius,
    y := ySphere * p.radius,
    z := Real.sin theta * radiusAtY * p.radius,
    vx := 0, vy := 0, vz := 0, fx := 0, fy := 0, fz := 0 }

/-- The micro-jitter branch of the node initializer:
`x += (Math.random() - 0.5) * scale` on each coordinate, consuming three
random samples per atom in program order. -/
def jitteredNode (p : LayoutParams) (rand : ℕ → ℝ) (i : ℕ)
    (a : AtomData) : Node :=
  { id := a.id, element := a.element,
    x := a.x + (rand (3 * i) - 0.5) * p.jitterScale,
    y := a.y + (rand (3 * i + 1) - 0.5) * p.jitterScale,
    z := zCoord a + (rand (3 * i + 2) - 0.5) * p.jitterScale,
    vx := 0, vy := 0, vz := 0, fx := 0, fy := 0, fz := 0 }

/-- One node of the `nodes` initialization map. -/
noncomputable def initNode (p : LayoutParams) (mol : Molecule) (rand : ℕ → ℝ)
    (i : ℕ) (a : AtomData) : Node :=
  if needsScramble mol then scrambledNode p mol i a else jitteredNode p rand i a

/-- `molecule.atoms.map((a, index) => ...)` written as index-threading
recursion. -/
noncomputable def initNodesGo (p : LayoutParams) (mol : Molecule)
    (rand : ℕ → ℝ) : ℕ → List AtomData → List Node
  | _, [] => []
  | i, a :: rest => initNode p mol rand i a :: initNodesGo p mol rand (i + 1) rest

/-- The full `nodes` array built from the input atoms. -/
noncomputable def initNodesOf (p : LayoutParams) (mol : Molecule)
    (rand : ℕ → ℝ) : List Node :=
  initNodesGo p mol rand 0 mol.atoms

/-- The node list produced when every atom takes the scramble branch. -/
noncomputable def scrambleNodesGo (p : LayoutParams) (mol : Molecule) :
    ℕ → List AtomData → List Node
  | _, [] => []
  | i, a :: rest => scrambledNode p mol i a :: scrambleNodesGo p mol (i + 1) rest

/-- The scramble-branch initialization of the whole atom list. -/
noncomputable def scrambleNodesOf (p : LayoutParams) (mol : Molecule) :
    List Node :=
  scrambleNodesGo p mol 0 mol.atoms

/-- The node list produced when every atom takes the micro-jitter branch. -/
def jitterNodesGo (p : LayoutParams) (rand : ℕ → ℝ) :
    ℕ → List AtomData → List Node
  | _, [] => []
  | i, a :: rest => jitteredNode p rand i a :: jitterNodesGo p rand (i + 1) rest

/-- The jitter-branch initialization of the whole atom list. -/
def jitterNodesOf (p : LayoutParams) (mol : Molecule) (rand : ℕ → ℝ) :
    List Node :=
  jitterNodesGo p rand 0 mol.atoms

/-- `nodes.findIndex(n => n.id === id)`: first index with the given id,
`-1` when absent. -/
def findIndexOfId : List Node → String → Int
  | [], _ => -1
  | n :: rest, aid =>
    if n.id = aid then 0
    else
      let r := findIndexOfId rest aid
      if r = -1 then -1 else r + 1

/-- A simulated edge: node indices plus target rest length. -/
structure Edge where
  source : Int
  target : Int
  len : ℝ

/-- Target rest length by bond order (the two sequential `if`s of the source:
an order-3 check wins over the order-2 check, everything else is single). -/
noncomputable def restLength (p : LayoutParams) (order : ℕ) : ℝ :=
  if order = 3 then p.lengthTriple
  else if order = 2 then p.lengthDouble
  else p.lengthSingle

/-- `edges = molecule.bonds.map(...).filter(e => e.source !== -1 && e.target !== -1)`. -/
noncomputable def mkEdges (p : LayoutParams) (nodes : List Node) (bonds : List BondData) :
    List Edge :=
  (bonds.map (fun b =>
    { source := findIndexOfId nodes b.sourceAtomId,
      target := findIndexOfId nodes b.targetAtomId,
      len := restLength p b.order : Edge })).filter
    (fun e => e.source != -1 && e.target != -1)

/-- The simulated edge set as built inside `autoLayoutMolecule`. -/
noncomputable def edgesOf (p : LayoutParams) (mol : Molecule)
    (rand : ℕ → ℝ) : List Edge :=
  mkEdges p (initNodesOf p mol rand) mol.bonds

/-- Squared-distance floor: `if (distSq < eps) distSq = eps` — the divisor of
the repulsion force. -/
noncomputable def flooredDistSq (eps distSq : ℝ) : ℝ :=
  if distSq < eps then eps else distSq

/-- `Math.sqrt(...) || 0.1` — the divisor of the spring force (zero is
replaced by 0.1; a square root of a real is never NaN). -/
noncomputable def safeBondDist (d : ℝ) : ℝ :=
  if d = 0 then 0.1 else d

/-- Reset every node's force accumulator to zero (start of each iteration). -/
def resetForces (nodes : List Node) : List Node :=
  nodes.map (fun n => { n with fx := 0, fy := 0, fz := 0 })

/-- The index pairs `(i, j)` with `i < j < n` visited by the nested repulsion
loops, in program order. -/
def pairIndexList (n : ℕ) : List (ℕ × ℕ) :=
  (List.range n).flatMap (fun i =>
    ((List.range n).filter (fun j => i < j)).map (fun j => (i, j)))

/-- The repulsion update for one unordered pair: inverse-square force
`kRepulsion / distSq` along the separating axis, added to `n1` and
subtracted from `n2`. -/
noncomputable def repulsionUpdate (p : LayoutParams) (nodes : List Node)
    (ij : ℕ × ℕ) : List Node :=
  let n1 := nodes.getD ij.1 defaultNode
  let n2 := nodes.getD ij.2 defaultNode
  let dx := n1.x - n2.x
  let dy := n1.y - n2.y
  let dz := n1.z - n2.z
  let distSq := flooredDistSq p.epsSq (dx * dx + dy * dy + dz * dz)
  let dist := Real.sqrt distSq
  let force := p.kRepulsion / distSq
  let fx := dx / dist * force
  let fy := dy / dist * force
  let fz := dz / dist * force
  (nodes.set ij.1
    { n1 with fx := n1.fx + fx, fy := n1.fy + fy, fz := n1.fz + fz }).set ij.2
    { n2 with fx := n2.fx - fx, fy := n2.fy - fy, fz := n2.fz - fz }

/-- Phase 1 of an iteration: pairwise repulsion over all `i < j`. -/
noncomputable def applyRepulsion (p : LayoutParams) (nodes : List Node) :
    List Node :=
  (pairIndexList nodes.length).foldl (repulsionUpdate p) nodes

/-- The spring update for one edge: linear force
`kSpring * (dist - len)` along the bond axis. -/
noncomputable def springUpdate (p : LayoutParams) (nodes : List Node)
    (e : Edge) : List Node :=
  let n1 := nodes.getD e.source.toNat defaultNode
  let n2 := nodes.getD e.target.toNat defaultNode
  let dx := n2.x - n1.x
  let dy := n2.y - n1.y
  let dz := n2.z - n1.z
  let dist := safeBondDist (Real.sqrt (dx * dx + dy * dy + dz * dz))
  let force := p.kSpring * (dist - e.len)
  let fx := dx / dist * force
  let fy := dy / dist * force
  let fz := dz / dist * force
  (nodes.set e.source.toNat
    { n1 with fx := n1.fx + fx, fy := n1.fy + fy, fz := n1.fz + fz }).set
    e.target.toNat
    { n2 with fx := n2.fx - fx, fy := n2.fy - fy, fz := n2.fz - fz }

/-- Phase 2 of an iteration: bonded attraction over all simulated edges. -/
noncomputable def applySprings (p : LayoutParams) (edges : List Edge)
    (nodes : List Node) : List Node :=
  edges.foldl (springUpdate p) nodes

/-- Phase 3 of an iteration: weak centering gravity proportional to the
node's own position. -/
def applyGravity (p : LayoutParams) (nodes : List Node) : List Node :=
  nodes.map (fun n =>
    { n with fx := n.fx - n.x * p.gravity,
             fy := n.fy - n.y * p.gravity,
             fz := n.fz - n.z * p.gravity })

/-- The squared velocity `vSq` of a node right after damping and before the
temperature cap — the value the first variant accumulates into `maxVelSq`. -/
def preCapVSq (p : LayoutParams) (n : Node) : ℝ :=
  ((n.vx + n.fx) * p.damping) * ((n.vx + n.fx) * p.damping) +
  ((n.vy + n.fy) * p.damping) * ((n.vy + n.fy) * p.damping) +
  ((n.vz + n.fz) * p.damping) * ((n.vz + n.fz) * p.damping)

/-- Phase 4 for one node: damp the velocity, cap its magnitude at the current
temperature, then move the node.  Capping is expressed as multiplication by a
scale that is `1` when the cap does not fire (the source keeps the vector
unchanged in that case, which is the same value). -/
noncomputable def updateNode (p : LayoutParams) (temperature : ℝ)
    (n : Node) : Node :=
  let vx0 := (n.vx + n.fx) * p.damping
  let vy0 := (n.vy + n.fy) * p.damping
  let vz0 := (n.vz + n.fz) * p.damping
  let vSq := preCapVSq p n
  let scale := if vSq > temperature * temperature
    then temperature / Real.sqrt vSq else 1
  { n with
    vx := vx0 * scale, vy := vy0 * scale, vz := vz0 * scale,
    x := n.x + vx0 * scale, y := n.y + vy0 * scale, z := n.z + vz0 * scale }

/-- The simulation state carried across iterations: the node array, the
annealing temperature, and the `maxVelSq` recorded during the latest
iteration (0 before the first iteration). -/
structure SimState where
  nodes : List Node
  temperature : ℝ
  maxVelSq : ℝ

/-- One full iteration of the simulation loop: reset forces, repulsion,
springs, gravity, then the annealed position update and cooling.
`maxVelSq` is the maximum of the pre-cap `vSq` values of this iteration,
as accumulated by the first variant's update loop. -/
noncomputable def stepState (p : LayoutParams) (edges : List Edge)
    (st : SimState) : SimState :=
  let prepared := applyGravity p (applySprings p edges
    (applyRepulsion p (resetForces st.nodes)))
  { nodes := prepared.map (updateNode p st.temperature),
    temperature := st.temperature * p.cooling,
    maxVelSq := prepared.foldl (fun acc n => max acc (preCapVSq p n)) 0 }

/-- The `for (k = 0; k < ITERATIONS; k++) { ...; if (stop) break; }` loop:
returns the final state together with the number of executed iterations. -/
noncomputable def runSim (step : SimState → SimState) (stop : SimState → Prop) :
    ℕ → SimState → SimState × ℕ
  | 0, st => (st, 0)
  | fuel + 1, st =>
    let st' := step st
    if stop st' then (st', 1)
    else
      let r := runSim step stop fuel st'
      (r.1, r.2 + 1)

/-- The stop predicate of a variant, applied to the state reached at the end
of an iteration. -/
def stopPred (p : LayoutParams) (st : SimState) : Prop :=
  p.stop st.temperature st.maxVelSq

/-- The iteration step of a variant on a given molecule. -/
noncomputable def stepOf (p : LayoutParams) (mol : Molecule)
    (rand : ℕ → ℝ) : SimState → SimState :=
  stepState p (edgesOf p mol rand)

/-- The initial simulation state of a variant on a given molecule. -/
noncomputable def initStateOf (p : LayoutParams) (mol : Molecule)
    (rand : ℕ → ℝ) : SimState :=
  { nodes := initNodesOf p mol rand, temperature := p.temp0, maxVelSq := 0 }

/-- Final state and executed iteration count of the simulation loop. -/
noncomputable def simResult (p : LayoutParams) (mol : Molecule)
    (rand : ℕ → ℝ) : SimState × ℕ :=
  runSim (stepOf p mol rand) (stopPred p) p.iterations (initStateOf p mol rand)

/-- The parameterized layout engine shared by the two source variants:
an empty graph is returned unchanged; otherwise the simulated node positions
are written back (recentered to the centroid when the variant does so),
and the bonds are passed through. -/
noncomputable def autoLayout (p : LayoutParams) (molecule : Molecule)
    (rand : ℕ → ℝ) (width height : ℝ) : Molecule :=
  if molecule.atoms = [] then molecule
  else
    let nodes := (simResult p molecule rand).1.nodes
    let atomsOut :=
      if p.recenter then
        let cx := (nodes.map (fun n => n.x)).sum / (nodes.length : ℝ)
        let cy := (nodes.map (fun n => n.y)).sum / (nodes.length : ℝ)
        let cz := (nodes.map (fun n => n.z)).sum / (nodes.length : ℝ)
        nodes.map (fun n =>
          { id := n.id, element := n.element,
            x := n.x - cx, y := n.y - cy, z := n.z - cz : AtomData })
      else
        nodes.map (fun n =>
          { id := n.id, element := n.element,
            x := n.x, y := n.y, z := n.z : AtomData })
    { molecule with atoms := atomsOut, bonds := molecule.bonds }

/-- The first variant of `autoLayoutMolecule` (lines 11-210). -/
noncomputable def autoLayoutMoleculeV1 (molecule : Molecule) (rand : ℕ → ℝ)
    (width height : ℝ) : Molecule :=
  autoLayout paramsV1 molecule rand width height

/-- The second variant of `autoLayoutMolecule` (lines 221-419). -/
noncomputable def autoLayoutMoleculeV2 (molecule : Molecule) (rand : ℕ → ℝ)
    (width height : ℝ) : Molecule :=
  autoLayout paramsV2 molecule rand width height

/-- Mean x coordinate of a molecule's atoms. -/
noncomputable def centroidX (mol : Molecule) : ℝ :=
  (mol.atoms.map (fun a => a.x)).sum / (mol.atoms.length : ℝ)

/-- Mean y coordinate of a molecule's atoms. -/
noncomputable def centroidY (mol : Molecule) : ℝ :=
  (mol.atoms.map (fun a => a.y)).sum / (mol.atoms.length : ℝ)

/-- Mean z coordinate of a molecule's atoms. -/
noncomputable def centroidZ (mol : Molecule) : ℝ :=
  (mol.atoms.map (fun a => a.z)).sum / (mol.atoms.length : ℝ)

/-- The list of atom ids of a molecule. -/
def atomIds (mol : Molecule) : List String :=
  mol.atoms.map (fun a => a.id)

/-- Whether both endpoints of a bond are present among the molecule's atoms. -/
def bothEndpointsPresent (mol : Molecule) (b : BondData) : Bool :=
  decide (b.sourceAtomId ∈ atomIds mol) && decide (b.targetAtomId ∈ atomIds mol)

/-- A node with its force accumulator cleared; the three force phases of an
iteration change nothing but the force accumulator, which this projection
erases. -/
def forceFree (n : Node) : Node :=
  { n with fx := 0, fy := 0, fz := 0 }

/-- Position of a node. -/
def posOf (n : Node) : ℝ × ℝ × ℝ := (n.x, n.y, n.z)

/-- Velocity of a node. -/
def velOf (n : Node) : ℝ × ℝ × ℝ := (n.vx, n.vy, n.vz)

/-- Identity and element of a node. -/
def idElemOf (n : Node) : String × String := (n.id, n.element)

/-- Identity and element of an atom. -/
def atomKey (a : AtomData) : String × String := (a.id, a.element)

/-- Default atom for (never occurring in-range) list lookups. -/
def defaultAtom : AtomData :=
  { id := "", element := "", x := 0, y := 0, z := 0 }

/-- A random stream that always yields 0.5, making every micro-jitter offset
exactly zero. -/
noncomputable def randHalf : ℕ → ℝ := fun _ => 0.5

/-- A random stream that always yields 0. -/
def randZero : ℕ → ℝ := fun _ => 0

/-- A single atom placed very far from the origin on the x axis. -/
def atomBig : AtomData :=
  { id := "a", element := "H", x := 1000000, y := 0, z := 0 }

/-- A one-atom, bond-free molecule far from the origin. -/
def molBig : Molecule :=
  { id := "mb", name := "big", atoms := [atomBig], bonds := [], formula := none }

/-- A bond whose target id `zz` names no atom. -/
def danglingBond : BondData :=
  { id := "b1", sourceAtomId := "a1", targetAtomId := "zz", order := 1 }

/-- A molecule with one atom and one dangling bond. -/
def molDangling : Molecule :=
  { id := "md", name := "dangling",
    atoms := [{ id := "a1", element := "H", x := 0, y := 0, z := 0 }],
    bonds := [danglingBond], formula := none }

/-- A flat three-atom molecule (all z = 0), which triggers the scramble
branch. -/
def molFlat : Molecule :=
  { id := "mf", name := "flat",
    atoms := [{ id := "a1", element := "C", x := 0, y := 0, z := 0 },
              { id := "a2", element := "O", x := 3, y := 0, z := 0 },
              { id := "a3", element := "H", x := 0, y := 3, z := 0 }],
    bonds := [], formula := none }

/-- Invariant of the second variant's simulation on `molBig`: the single node
stays on the x axis far from the origin (the weak gravity moves it by at most
the temperature per iteration), its velocity is capped to at most 10 in
magnitude, and the temperature follows the exact cooling schedule. -/
def invC6 (k : ℕ) (st : SimState) : Prop :=
  st.temperature = 10 * (0.97 : ℝ) ^ k ∧
  ∃ n : Node, st.nodes = [n] ∧ n.y = 0 ∧ n.z = 0 ∧ n.vy = 0 ∧ n.vz = 0 ∧
    n.x = 1000000 - (1000 / 3) * (1 - (0.97 : ℝ) ^ k) ∧
    -10 ≤ n.vx ∧ n.vx ≤ 0

/-! ### Generic list lemmas -/

theorem list_set_getD_self {α : Type} : ∀ (l : List α) (i : ℕ) (d : α),
    l.set i (l.getD i d) = l := by
  intro l
  induction l with
  | nil => intro i d; rfl
  | cons a rest ih =>
    intro i d
    cases i with
    | zero => rfl
    | succ j =>
      have h2 := ih j d
      simp only [List.getD] at h2
      simp only [List.set, List.getD, List.get?_cons_succ, h2]

theorem list_map_set_invariant {α β : Type} (f : α → β) (d : α)
    (l : List α) (i : ℕ) (a : α) (h : f a = f (l.getD i d)) :
    (l.set i a).map f = l.map f := by
  rw [List.map_set, h, ← List.getD_map l d f, list_set_getD_self]

theorem list_foldl_map_invariant {α β γ : Type} (f : α → γ)
    (g : List α → β → List α) (h : ∀ ns b, (g ns b).map f = ns.map f) :
    ∀ (l : List β) (ns : List α), (l.foldl g ns).map f = ns.map f := by
  intro l
  induction l with
  | nil => intro ns; rfl
  | cons b rest ih => intro ns; rw [List.foldl_cons, ih, h]

theorem list_sum_map_sub_const : ∀ (l : List ℝ) (c : ℝ),
    (l.map (fun v => v - c)).sum = l.sum - (l.length : ℝ) * c := by
  intro l
  induction l with
  | nil => intro c; simp
  | cons v rest ih =>
    intro c
    simp only [List.map_cons, List.sum_cons, List.length_cons, ih]
    push_cast
    ring

/-! ### The force phases only touch force accumulators -/

theorem forceFree_update_forces (n : Node) (a b c : ℝ) :
    forceFree { n with fx := a, fy := b, fz := c } = forceFree n := rfl

/-- Writing two force-only updates back into the node list leaves the
force-erased view unchanged. -/
theorem set_forces_twice_forceFree (nodes : List Node) (i j : ℕ)
    (m1 m2 : Node)
    (h1 : forceFree m1 = forceFree (nodes.getD i defaultNode))
    (h2 : forceFree m2 = forceFree (nodes.getD j defaultNode)) :
    ((nodes.set i m1).set j m2).map forceFree = nodes.map forceFree := by
  have ha : (nodes.set i m1).map forceFree = nodes.map forceFree :=
    list_map_set_invariant forceFree defaultNode nodes i m1 h1
  have hb : forceFree ((nodes.set i m1).getD j defaultNode)
      = forceFree (nodes.getD j defaultNode) := by
    rw [← List.getD_map _ defaultNode forceFree, ha,
      List.getD_map _ defaultNode forceFree]
  exact (list_map_set_invariant forceFree defaultNode _ j m2
    (h2.trans hb.symm)).trans ha

theorem repulsionUpdate_forceFree (p : LayoutParams) (nodes : List Node)
    (ij : ℕ × ℕ) :
    (repulsionUpdate p nodes ij).map forceFree = nodes.map forceFree := by
  unfold repulsionUpdate
  exact set_forces_twice_forceFree nodes ij.1 ij.2 _ _ rfl rfl

theorem springUpdate_forceFree (p : LayoutParams) (nodes : List Node)
    (e : Edge) :
    (springUpdate p nodes e).map forceFree = nodes.map forceFree := by
  unfold springUpdate
  exact set_forces_twice_forceFree nodes e.source.toNat e.target.toNat _ _
    rfl rfl

theorem resetForces_forceFree (nodes : List Node) :
    (resetForces nodes).map forceFree = nodes.map forceFree := by
  unfold resetForces
  rw [List.map_map]
  rfl

theorem applyRepulsion_forceFree (p : LayoutParams) (nodes : List Node) :
    (applyRepulsion p nodes).map forceFree = nodes.map forceFree := by
  unfold applyRepulsion
  exact list_foldl_map_invariant forceFree (repulsionUpdate p)
    (repulsionUpdate_forceFree p) _ nodes

theorem applySprings_forceFree (p : LayoutParams) (edges : List Edge)
    (nodes : List Node) :
    (applySprings p edges nodes).map forceFree = nodes.map forceFree := by
  unfold applySprings
  exact list_foldl_map_invariant forceFree (springUpdate p)
    (springUpdate_forceFree p) edges nodes

theorem applyGravity_forceFree (p : LayoutParams) (nodes : List Node) :
    (applyGravity p nodes).map forceFree = nodes.map forceFree := by
  unfold applyGravity
  rw [List.map_map]
  rfl

/-- All four force phases together leave everything but forces unchanged. -/
theorem phases_forceFree (p : LayoutParams) (edges : List Edge)
    (nodes : List Node) :
    (applyGravity p (applySprings p edges
      (applyRepulsion p (resetForces nodes)))).map forceFree
      = nodes.map forceFree := by
  rw [applyGravity_forceFree, applySprings_forceFree,
    applyRepulsion_forceFree, resetForces_forceFree]

/-! ### Projections of the force-phase invariant -/

theorem phases_length (p : LayoutParams) (edges : List Edge)
    (nodes : List Node) :
    (applyGravity p (applySprings p edges
      (applyRepulsion p (resetForces nodes)))).length = nodes.length := by
  have h := congrArg List.length (phases_forceFree p edges nodes)
  simpa using h

theorem phases_posOf (p : LayoutParams) (edges : List Edge)
    (nodes : List Node) :
    (applyGravity p (applySprings p edges
      (applyRepulsion p (resetForces nodes)))).map posOf
      = nodes.map posOf := by
  have h := congrArg (List.map posOf) (phases_forceFree p edges nodes)
  simpa [List.map_map, Function.comp] using h

theorem phases_velOf (p : LayoutParams) (edges : List Edge)
    (nodes : List Node) :
    (applyGravity p (applySprings p edges
      (applyRepulsion p (resetForces nodes)))).map velOf
      = nodes.map velOf := by
  have h := congrArg (List.map velOf) (phases_forceFree p edges nodes)
  simpa [List.map_map, Function.comp] using h

theorem phases_idElemOf (p : LayoutParams) (edges : List Edge)
    (nodes : List Node) :
    (applyGravity p (applySprings p edges
      (applyRepulsion p (resetForces nodes)))).map idElemOf
      = nodes.map idElemOf := by
  have h := congrArg (List.map idElemOf) (phases_forceFree p edges nodes)
  simpa [List.map_map, Function.comp] using h

/-! ### The iteration step: identity/element, length, temperature -/

theorem updateNode_idElemOf (p : LayoutParams) (t : ℝ) (n : Node) :
    idElemOf (updateNode p t n) = idElemOf n := rfl

theorem stepState_idElemOf (p : LayoutParams) (edges : List Edge)
    (st : SimState) :
    (stepState p edges st).nodes.map idElemOf = st.nodes.map idElemOf := by
  unfold stepState
  rw [List.map_map]
  have : idElemOf ∘ updateNode p st.temperature = idElemOf := rfl
  rw [this, phases_idElemOf]

theorem stepState_length (p : LayoutParams) (edges : List Edge)
    (st : SimState) :
    (stepState p edges st).nodes.length = st.nodes.length := by
  have h := congrArg List.length (stepState_idElemOf p edges st)
  simpa using h

theorem stepState_temperature (p : LayoutParams) (edges : List Edge)
    (st : SimState) :
    (stepState p edges st).temperature = st.temperature * p.cooling := rfl

theorem iterate_stepState_temperature (p : LayoutParams) (edges : List Edge)
    (st : SimState) : ∀ k : ℕ,
    ((stepState p edges)^[k] st).temperature = st.temperature * p.cooling ^ k := by
  intro k
  induction k with
  | zero => simp
  | succ m ih =>
    rw [Function.iterate_succ_apply', stepState_temperature, ih]
    ring

/-! ### The simulation loop: iteration count and early exit -/

theorem runSim_count_le (step : SimState → SimState) (stop : SimState → Prop) :
    ∀ (fuel : ℕ) (st : SimState), (runSim step stop fuel st).2 ≤ fuel := by
  intro fuel
  induction fuel with
  | zero => intro st; simp [runSim]
  | succ m ih =>
    intro st
    rw [runSim]
    by_cases h : stop (step st)
    · simp [h]
    · simpa [h] using Nat.succ_le_succ (ih (step st))

theorem runSim_count_pos (step : SimState → SimState) (stop : SimState → Prop)
    (fuel : ℕ) (st : SimState) (hf : 0 < fuel) :
    1 ≤ (runSim step stop fuel st).2 := by
  cases fuel with
  | zero => exact absurd hf (lt_irrefl 0)
  | succ m =>
    rw [runSim]
    by_cases h : stop (step st)
    · simp [h]
    · simp [h]

theorem runSim_fst_eq_iterate (step : SimState → SimState)
    (stop : SimState → Prop) :
    ∀ (fuel : ℕ) (st : SimState),
    (runSim step stop fuel st).1 = step^[(runSim step stop fuel st).2] st := by
  intro fuel
  induction fuel with
  | zero => intro st; simp [runSim]
  | succ m ih =>
    intro st
    rw [runSim]
    by_cases h : stop (step st)
    · simp [h]
    · simp only [h, if_neg, ite_false]
      rw [ih (step st), Function.iterate_succ_apply]

theorem runSim_stop_of_early (step : SimState → SimState)
    (stop : SimState → Prop) :
    ∀ (fuel : ℕ) (st : SimState), (runSim step stop fuel st).2 < fuel →
    stop (runSim step stop fuel st).1 := by
  intro fuel
  induction fuel with
  | zero => intro st h; exact absurd h (by simp [runSim])
  | succ m ih =>
    intro st h
    rw [runSim] at h ⊢
    by_cases hs : stop (step st)
    · simpa [hs] using hs
    · simp only [hs, if_neg, ite_false] at h ⊢
      exact ih (step st) (by omega)

theorem runSim_no_stop_before (step : SimState → SimState)
    (stop : SimState → Prop) :
    ∀ (fuel : ℕ) (st : SimState) (m : ℕ), 1 ≤ m →
    m < (runSim step stop fuel st).2 → ¬ stop (step^[m] st) := by
  intro fuel
  induction fuel with
  | zero =>
    intro st m h1 h2
    have hz : m < 0 := by simpa [runSim] using h2
    omega
  | succ k ih =>
    intro st m h1 h2
    rw [runSim] at h2
    by_cases hs : stop (step st)
    · simp [hs] at h2; omega
    · simp only [hs, if_neg, ite_false] at h2
      cases m with
      | zero => omega
      | succ j =>
        cases j with
        | zero => simpa using hs
        | succ i =>
          rw [Function.iterate_succ_apply]
          exact ih (step st) (i + 2 - 1) (by omega) (by omega)

/-- The loop exits before exhausting its fuel exactly when the stop predicate
holds at the end of some earlier iteration. -/
theorem runSim_early_iff (step : SimState → SimState) (stop : SimState → Prop)
    (fuel : ℕ) (st : SimState) :
    (runSim step stop fuel st).2 < fuel ↔
    ∃ m : ℕ, 1 ≤ m ∧ m < fuel ∧ stop (step^[m] st) := by
  constructor
  · intro h
    refine ⟨(runSim step stop fuel st).2, ?_, h, ?_⟩
    · exact runSim_count_pos step stop fuel st (by omega)
    · rw [← runSim_fst_eq_iterate]
      exact runSim_stop_of_early step stop fuel st h
  · rintro ⟨m, hm1, hmf, hstop⟩
    by_contra hge
    have hcount : (runSim step stop fuel st).2 = fuel := by
      have := runSim_count_le step stop fuel st
      omega
    exact runSim_no_stop_before step stop fuel st m hm1 (by omega) hstop

/-! ### Identity/element and length through the whole loop -/

theorem runSim_idElemOf (p : LayoutParams) (edges : List Edge)
    (stop : SimState → Prop) :
    ∀ (fuel : ℕ) (st : SimState),
    (runSim (stepState p edges) stop fuel st).1.nodes.map idElemOf
      = st.nodes.map idElemOf := by
  intro fuel
  induction fuel with
  | zero => intro st; simp [runSim]
  | succ m ih =>
    intro st
    rw [runSim]
    by_cases h : stop (stepState p edges st)
    · simpa [h] using stepState_idElemOf p edges st
    · simp only [h, if_neg, ite_false]
      rw [ih (stepState p edges st), stepState_idElemOf]

theorem runSim_nodes_length (p : LayoutParams) (edges : List Edge)
    (stop : SimState → Prop) (fuel : ℕ) (st : SimState) :
    (runSim (stepState p edges) stop fuel st).1.nodes.length
      = st.nodes.length := by
  have h := congrArg List.length (runSim_idElemOf p edges stop fuel st)
  simpa using h

/-! ### Node initialization -/

theorem initNode_idElemOf (p : LayoutParams) (mol : Molecule) (rand : ℕ → ℝ)
    (i : ℕ) (a : AtomData) :
    idElemOf (initNode p mol rand i a) = atomKey a := by
  unfold initNode
  split <;> rfl

theorem initNodesGo_idElemOf (p : LayoutParams) (mol : Molecule)
    (rand : ℕ → ℝ) : ∀ (l : List AtomData) (i : ℕ),
    (initNodesGo p mol rand i l).map idElemOf = l.map atomKey := by
  intro l
  induction l with
  | nil => intro i; rfl
  | cons a rest ih =>
    intro i
    simp only [initNodesGo, List.map_cons, initNode_idElemOf, ih]

theorem initNodesOf_idElemOf (p : LayoutParams) (mol : Molecule)
    (rand : ℕ → ℝ) :
    (initNodesOf p mol rand).map idElemOf = mol.atoms.map atomKey :=
  initNodesGo_idElemOf p mol rand mol.atoms 0

theorem initNodesOf_length (p : LayoutParams) (mol : Molecule)
    (rand : ℕ → ℝ) :
    (initNodesOf p mol rand).length = mol.atoms.length := by
  have h := congrArg List.length (initNodesOf_idElemOf p mol rand)
  simpa using h

theorem initNodesGo_getD (p : LayoutParams) (mol : Molecule) (rand : ℕ → ℝ) :
    ∀ (l : List AtomData) (j i : ℕ), i < l.length →
    (initNodesGo p mol rand j l).getD i defaultNode
      = initNode p mol rand (j + i) (l.getD i defaultAtom) := by
  intro l
  induction l with
  | nil => intro j i h; exact absurd h (by simp)
  | cons a rest ih =>
    intro j i h
    cases i with
    | zero => simp [initNodesGo, List.getD]
    | succ k =>
      have hk : k < rest.length := by simpa using h
      have h3 := ih (j + 1) k hk
      have harith : j + 1 + k = j + (k + 1) := by omega
      rw [harith] at h3
      simp only [initNodesGo, List.getD_cons_succ, h3]

theorem initNodesOf_getD (p : LayoutParams) (mol : Molecule) (rand : ℕ → ℝ)
    (i : ℕ) (h : i < mol.atoms.length) :
    (initNodesOf p mol rand).getD i defaultNode
      = initNode p mol rand i (mol.atoms.getD i defaultAtom) := by
  have := initNodesGo_getD p mol rand mol.atoms 0 i h
  simpa using this

/-- When the scramble condition holds, initialization is the pure
golden-angle spherical scatter (no random samples consumed). -/
theorem initNodesGo_scramble (p : LayoutParams) (mol : Molecule)
    (rand : ℕ → ℝ) (hs : needsScramble mol) :
    ∀ (l : List AtomData) (i : ℕ),
    initNodesGo p mol rand i l = initNodesGo p mol randZero i l := by
  intro l
  induction l with
  | nil => intro i; rfl
  | cons a rest ih =>
    intro i
    simp only [initNodesGo, initNode, if_pos hs, ih]

/-! ### The output record of `autoLayout` -/

theorem autoLayout_bonds (p : LayoutParams) (mol : Molecule) (rand : ℕ → ℝ)
    (w h : ℝ) : (autoLayout p mol rand w h).bonds = mol.bonds := by
  by_cases hc : mol.atoms = [] <;> simp [autoLayout, hc]

theorem autoLayout_atoms_idElem (p : LayoutParams) (mol : Molecule)
    (rand : ℕ → ℝ) (w h : ℝ) :
    (autoLayout p mol rand w h).atoms.map atomKey = mol.atoms.map atomKey := by
  unfold autoLayout
  by_cases hc : mol.atoms = []
  · rw [if_pos hc]
  · rw [if_neg hc]
    have hn : (simResult p mol rand).1.nodes.map idElemOf
        = mol.atoms.map atomKey := by
      unfold simResult stepOf initStateOf
      rw [runSim_idElemOf]
      exact initNodesOf_idElemOf p mol rand
    split
    all_goals
      dsimp only
      rw [List.map_map]
      calc ((simResult p mol rand).1.nodes.map _ : List (String × String))
          = (simResult p mol rand).1.nodes.map idElemOf := by rfl
        _ = mol.atoms.map atomKey := hn

theorem autoLayout_atoms_length (p : LayoutParams) (mol : Molecule)
    (rand : ℕ → ℝ) (w h : ℝ) :
    (autoLayout p mol rand w h).atoms.length = mol.atoms.length := by
  have h2 := congrArg List.length (autoLayout_atoms_idElem p mol rand w h)
  simpa using h2

/-! ### Per-iteration movement is bounded by the temperature -/

theorem updateNode_default (p : LayoutParams) (t : ℝ) :
    updateNode p t defaultNode = defaultNode := by
  simp [updateNode, defaultNode]

/-- After damping and capping, each velocity component is at most the
temperature in magnitude. -/
theorem capped_component_bound (t v vSq : ℝ) (ht : 0 ≤ t) (hv : v * v ≤ vSq) :
    |v * (if vSq > t * t then t / Real.sqrt vSq else 1)| ≤ t := by
  have habs : |v| = Real.sqrt (v * v) := (Real.sqrt_mul_self_eq_abs v).symm
  split
  next hgt =>
    have hpos : 0 < vSq := lt_of_le_of_lt (mul_self_nonneg t) hgt
    have hs : 0 < Real.sqrt vSq := Real.sqrt_pos.mpr hpos
    have hvle : |v| ≤ Real.sqrt vSq := by
      rw [habs]; exact Real.sqrt_le_sqrt hv
    have hscale : 0 ≤ t / Real.sqrt vSq := div_nonneg ht (le_of_lt hs)
    rw [abs_mul, abs_of_nonneg hscale]
    calc |v| * (t / Real.sqrt vSq)
        ≤ Real.sqrt vSq * (t / Real.sqrt vSq) :=
          mul_le_mul_of_nonneg_right hvle hscale
      _ = t := by field_simp
  next hle =>
    push_neg at hle
    rw [mul_one, habs]
    calc Real.sqrt (v * v) ≤ Real.sqrt (t * t) :=
          Real.sqrt_le_sqrt (le_trans hv hle)
      _ = |t| := Real.sqrt_mul_self_eq_abs t
      _ = t := abs_of_nonneg ht

theorem updateNode_move (p : LayoutParams) (t : ℝ) (n : Node) (ht : 0 ≤ t) :
    |(updateNode p t n).x - n.x| ≤ t := by
  have hx : (updateNode p t n).x - n.x = ((n.vx + n.fx) * p.damping) *
      (if preCapVSq p n > t * t then t / Real.sqrt (preCapVSq p n) else 1) := by
    simp only [updateNode]
    ring
  rw [hx]
  refine capped_component_bound t _ _ ht ?_
  unfold preCapVSq
  nlinarith [mul_self_nonneg ((n.vy + n.fy) * p.damping),
    mul_self_nonneg ((n.vz + n.fz) * p.damping)]

theorem stepState_move (p : LayoutParams) (edges : List Edge) (st : SimState)
    (ht : 0 ≤ st.temperature) (i : ℕ) :
    |((stepState p edges st).nodes.getD i defaultNode).x -
      (st.nodes.getD i defaultNode).x| ≤ st.temperature := by
  have hprep := phases_posOf p edges st.nodes
  have hnodes : (stepState p edges st).nodes =
      (applyGravity p (applySprings p edges
        (applyRepulsion p (resetForces st.nodes)))).map
        (updateNode p st.temperature) := rfl
  rw [hnodes]
  have hgd : ((applyGravity p (applySprings p edges
        (applyRepulsion p (resetForces st.nodes)))).map
        (updateNode p st.temperature)).getD i defaultNode
      = updateNode p st.temperature
        ((applyGravity p (applySprings p edges
          (applyRepulsion p (resetForces st.nodes)))).getD i defaultNode) := by
    conv_lhs => rw [← updateNode_default p st.temperature]
    exact List.getD_map _ defaultNode _
  rw [hgd]
  have hpos : posOf ((applyGravity p (applySprings p edges
        (applyRepulsion p (resetForces st.nodes)))).getD i defaultNode)
      = posOf (st.nodes.getD i defaultNode) := by
    have h1 := congrArg (fun l => l.getD i (posOf defaultNode)) hprep
    simpa [List.getD_map] using h1
  have hx : ((applyGravity p (applySprings p edges
        (applyRepulsion p (resetForces st.nodes)))).getD i defaultNode).x
      = (st.nodes.getD i defaultNode).x := congrArg Prod.fst hpos
  rw [← hx]
  exact updateNode_move p st.temperature _ ht

theorem runSim_move (p : LayoutParams) (edges : List Edge)
    (stop : SimState → Prop) (hc0 : 0 ≤ p.cooling) (hc1 : p.cooling < 1) :
    ∀ (fuel : ℕ) (st : SimState), 0 ≤ st.temperature → ∀ i : ℕ,
    |((runSim (stepState p edges) stop fuel st).1.nodes.getD i defaultNode).x -
      (st.nodes.getD i defaultNode).x| ≤ st.temperature / (1 - p.cooling) := by
  have hic : 0 < 1 - p.cooling := by linarith
  intro fuel
  induction fuel with
  | zero =>
    intro st ht i
    simp only [runSim, sub_self, abs_zero]
    exact div_nonneg ht (le_of_lt hic)
  | succ m ih =>
    intro st ht i
    have hTbound : st.temperature ≤ st.temperature / (1 - p.cooling) := by
      rw [le_div_iff hic]
      nlinarith [mul_nonneg ht hc0]
    rw [runSim]
    by_cases hs : stop (stepState p edges st)
    · simp only [hs, ite_true]
      exact le_trans (stepState_move p edges st ht i) hTbound
    · simp only [hs, ite_false]
      have ht2 : 0 ≤ (stepState p edges st).temperature := by
        rw [stepState_temperature]
        exact mul_nonneg ht hc0
      have hih := ih (stepState p edges st) ht2 i
      rw [stepState_temperature] at hih
      have hstep := stepState_move p edges st ht i
      have htri := abs_sub_le
        (((runSim (stepState p edges) stop m (stepState p edges st)).1.nodes.getD
          i defaultNode).x)
        (((stepState p edges st).nodes.getD i defaultNode).x)
        ((st.nodes.getD i defaultNode).x)
      have hsum : st.temperature * p.cooling / (1 - p.cooling) + st.temperature
          = st.temperature / (1 - p.cooling) := by
        field_simp
        ring
      linarith

/-! ### Exact dynamics of a single bond-free node (second variant) -/

/-- On a one-node state with no edges, an iteration reduces to gravity plus
the annealed update. -/
theorem stepState_singleton_noedges (p : LayoutParams) (n : Node) (T M : ℝ) :
    stepState p [] ⟨[n], T, M⟩ =
      { nodes := [updateNode p T
          { n with fx := 0 - n.x * p.gravity, fy := 0 - n.y * p.gravity,
                   fz := 0 - n.z * p.gravity }],
        temperature := T * p.cooling,
        maxVelSq := max 0 (preCapVSq p
          { n with fx := 0 - n.x * p.gravity, fy := 0 - n.y * p.gravity,
                   fz := 0 - n.z * p.gravity }) } := rfl

theorem invC6_step (k : ℕ) (st : SimState) (h : invC6 k st) :
    invC6 (k + 1) (stepState paramsV2 [] st) ∧
    1000000 ≤ (stepState paramsV2 [] st).maxVelSq := by
  rcases st with ⟨ns, T, M⟩
  obtain ⟨htemp, n, hnodes, hy, hz, hvy, hvz, hx, hvx1, hvx2⟩ := h
  simp only at htemp hnodes
  subst htemp hnodes
  have hq0 : (0 : ℝ) < (0.97 : ℝ) ^ k := pow_pos (by norm_num) k
  have hq1 : (0.97 : ℝ) ^ k ≤ 1 := pow_le_one₀ (by norm_num) (by norm_num)
  have hxlow : (999666 : ℝ) ≤ n.x := by rw [hx]; nlinarith
  have hxhigh : n.x ≤ 1000000 := by rw [hx]; nlinarith
  rw [stepState_singleton_noedges]
  have hgrav : paramsV2.gravity = 0.005 := rfl
  have hdamp : paramsV2.damping = 0.85 := rfl
  have hcool : paramsV2.cooling = 0.97 := rfl
  -- the node after the force phases
  have hfy : (0 : ℝ) - n.y * paramsV2.gravity = 0 := by rw [hy]; ring
  have hfz : (0 : ℝ) - n.z * paramsV2.gravity = 0 := by rw [hz]; ring
  have hvy0 : (n.vy + (0 - n.y * paramsV2.gravity)) * paramsV2.damping = 0 := by
    rw [hvy, hfy]; ring
  have hvz0 : (n.vz + (0 - n.z * paramsV2.gravity)) * paramsV2.damping = 0 := by
    rw [hvz, hfz]; ring
  have hvSq : preCapVSq paramsV2
      { n with fx := 0 - n.x * paramsV2.gravity, fy := 0 - n.y * paramsV2.gravity,
               fz := 0 - n.z * paramsV2.gravity }
      = ((n.vx + (0 - n.x * paramsV2.gravity)) * paramsV2.damping) *
        ((n.vx + (0 - n.x * paramsV2.gravity)) * paramsV2.damping) := by
    unfold preCapVSq
    simp only
    rw [hvy0, hvz0]
    ring
  have hvx0_ub : (n.vx + (0 - n.x * paramsV2.gravity)) * paramsV2.damping
      ≤ -4248 := by
    rw [hgrav, hdamp]
    nlinarith
  have hvx0_lb : (-4260 : ℝ)
      ≤ (n.vx + (0 - n.x * paramsV2.gravity)) * paramsV2.damping := by
    rw [hgrav, hdamp]
    nlinarith
  have hvSq_lb : (18000000 : ℝ) ≤ preCapVSq paramsV2
      { n with fx := 0 - n.x * paramsV2.gravity, fy := 0 - n.y * paramsV2.gravity,
               fz := 0 - n.z * paramsV2.gravity } := by
    rw [hvSq]
    nlinarith [sq_nonneg ((n.vx + (0 - n.x * paramsV2.gravity)) * paramsV2.damping
      + 4248)]
  have hT0 : (0 : ℝ) < 10 * (0.97 : ℝ) ^ k := by positivity
  have hT10 : 10 * (0.97 : ℝ) ^ k ≤ 10 := by nlinarith
  have hcap : preCapVSq paramsV2
      { n with fx := 0 - n.x * paramsV2.gravity, fy := 0 - n.y * paramsV2.gravity,
               fz := 0 - n.z * paramsV2.gravity }
      > (10 * (0.97 : ℝ) ^ k) * (10 * (0.97 : ℝ) ^ k) := by
    nlinarith
  have hsqrt : Real.sqrt (preCapVSq paramsV2
      { n with fx := 0 - n.x * paramsV2.gravity, fy := 0 - n.y * paramsV2.gravity,
               fz := 0 - n.z * paramsV2.gravity })
      = -((n.vx + (0 - n.x * paramsV2.gravity)) * paramsV2.damping) := by
    rw [hvSq, Real.sqrt_mul_self_eq_abs]
    exact abs_of_nonpos (by linarith)
  have hvx0_ne : (n.vx + (0 - n.x * paramsV2.gravity)) * paramsV2.damping ≠ 0 :=
    ne_of_lt (by linarith)
  have hscale_mul : ((n.vx + (0 - n.x * paramsV2.gravity)) * paramsV2.damping) *
      ((10 * (0.97 : ℝ) ^ k) / Real.sqrt (preCapVSq paramsV2
        { n with fx := 0 - n.x * paramsV2.gravity,
                 fy := 0 - n.y * paramsV2.gravity,
                 fz := 0 - n.z * paramsV2.gravity }))
      = -(10 * (0.97 : ℝ) ^ k) := by
    rw [hsqrt, div_neg, mul_neg, mul_div_cancel₀ _ hvx0_ne]
  constructor
  · refine ⟨?_, updateNode paramsV2 (10 * (0.97 : ℝ) ^ k)
      { n with fx := 0 - n.x * paramsV2.gravity, fy := 0 - n.y * paramsV2.gravity,
               fz := 0 - n.z * paramsV2.gravity }, rfl, ?_, ?_, ?_, ?_, ?_, ?_, ?_⟩
    · simp only [hcool]
      rw [pow_succ]
      ring
    · -- y stays 0
      simp only [updateNode]
      rw [if_pos hcap]
      rw [hvy0, hy]
      ring
    · -- z stays 0
      simp only [updateNode]
      rw [if_pos hcap]
      rw [hvz0, hz]
      ring
    · -- vy stays 0
      simp only [updateNode]
      rw [if_pos hcap]
      rw [hvy0]
      ring
    · -- vz stays 0
      simp only [updateNode]
      rw [if_pos hcap]
      rw [hvz0]
      ring
    · -- x follows the exact schedule
      simp only [updateNode]
      rw [if_pos hcap]
      rw [hscale_mul, hx, pow_succ]
      ring
    · -- new vx is at least -10
      simp only [updateNode]
      rw [if_pos hcap]
      rw [hscale_mul]
      linarith [hq0, hq1]
    · -- new vx is at most 0
      simp only [updateNode]
      rw [if_pos hcap]
      rw [hscale_mul]
      linarith [hq0, hq1]
  · -- the pre-cap squared velocity of this iteration is huge
    refine le_trans ?_ (le_max_right 0 _)
    linarith

theorem edgesOf_molBig : edgesOf paramsV2 molBig randHalf = [] := rfl

theorem stepOf_molBig : stepOf paramsV2 molBig randHalf = stepState paramsV2 [] := rfl

theorem initNode_molBig :
    initNode paramsV2 molBig randHalf 0 atomBig =
      { id := "a", element := "H", x := 1000000, y := 0, z := 0,
        vx := 0, vy := 0, vz := 0, fx := 0, fy := 0, fz := 0 } := by
  have hns : ¬ needsScramble molBig := by
    intro h
    have h1 := h.1
    simp [molBig] at h1
  rw [initNode, if_neg hns]
  simp [jitteredNode, atomBig, randHalf, zCoord, paramsV2]

theorem invC6_base : invC6 0 (initStateOf paramsV2 molBig randHalf) := by
  refine ⟨by norm_num [initStateOf, paramsV2],
    initNode paramsV2 molBig randHalf 0 atomBig, rfl, ?_, ?_, ?_, ?_,
    ?_, ?_, ?_⟩ <;> rw [initNode_molBig] <;> norm_num

theorem invC6_iterate : ∀ k : ℕ,
    invC6 k ((stepState paramsV2 [])^[k] (initStateOf paramsV2 molBig randHalf)) := by
  intro k
  induction k with
  | zero => simpa using invC6_base
  | succ m ih =>
    rw [Function.iterate_succ_apply']
    exact (invC6_step m _ ih).1

theorem maxVel_iterate (k : ℕ) :
    1000000 ≤ ((stepState paramsV2 [])^[k + 1]
      (initStateOf paramsV2 molBig randHalf)).maxVelSq := by
  rw [Function.iterate_succ_apply']
  exact (invC6_step k _ (invC6_iterate k)).2

theorem temp_iterate_molBig (m : ℕ) :
    ((stepState paramsV2 [])^[m]
      (initStateOf paramsV2 molBig randHalf)).temperature
      = 10 * (0.97 : ℝ) ^ m := by
  rw [iterate_stepState_temperature]
  norm_num [initStateOf, paramsV2]

theorem pow097_400 : (0.97 : ℝ) ^ 400 < 0.005 := by
  have h1 : (0.97 : ℝ) ^ 10 ≤ 0.74 := by norm_num
  have h2 : (0.74 : ℝ) ^ 40 < 0.005 := by norm_num
  calc (0.97 : ℝ) ^ 400 = ((0.97 : ℝ) ^ 10) ^ 40 := by rw [← pow_mul]
    _ ≤ (0.74 : ℝ) ^ 40 := pow_le_pow_left₀ (by positivity) h1 40
    _ < 0.005 := h2

theorem simCountV2_molBig_early :
    (simResult paramsV2 molBig randHalf).2 < 800 := by
  unfold simResult
  rw [stepOf_molBig]
  refine (runSim_early_iff (stepState paramsV2 []) (stopPred paramsV2)
    paramsV2.iterations (initStateOf paramsV2 molBig randHalf)).mpr
    ⟨400, by norm_num, by norm_num [paramsV2], ?_⟩
  show ((stepState paramsV2 [])^[400]
    (initStateOf paramsV2 molBig randHalf)).temperature < 0.05
  rw [temp_iterate_molBig 400]
  have := pow097_400
  linarith

/-- C6 (amended): both variants execute at most their fixed iteration caps
(600 and 800).  The first variant exits before reaching the cap exactly when,
at the end of an iteration, the temperature has dropped below 0.1 AND the
maximum squared pre-cap velocity across all atoms has dropped below 0.01.
The second variant exits before reaching its cap exactly when the temperature
has dropped below 0.05 at the end of an iteration — its exit condition does
not consult the velocities. -/
theorem C6_loop_exit (mol : Molecule) (rand : ℕ → ℝ) :
    (simResult paramsV1 mol rand).2 ≤ 600 ∧
    ((simResult paramsV1 mol rand).2 < 600 ↔
      ∃ m : ℕ, 1 ≤ m ∧ m < 600 ∧
        (((stepOf paramsV1 mol rand)^[m]
            (initStateOf paramsV1 mol rand)).temperature < 0.1 ∧
         ((stepOf paramsV1 mol rand)^[m]
            (initStateOf paramsV1 mol rand)).maxVelSq < 0.01)) ∧
    (simResult paramsV2 mol rand).2 ≤ 800 ∧
    ((simResult paramsV2 mol rand).2 < 800 ↔
      ∃ m : ℕ, 1 ≤ m ∧ m < 800 ∧
        ((stepOf paramsV2 mol rand)^[m]
          (initStateOf paramsV2 mol rand)).temperature < 0.05) := by
  refine ⟨?_, ?_, ?_, ?_⟩
  · exact runSim_count_le (stepOf paramsV1 mol rand) (stopPred paramsV1)
      paramsV1.iterations (initStateOf paramsV1 mol rand)
  · exact runSim_early_iff (stepOf paramsV1 mol rand) (stopPred paramsV1)
      paramsV1.iterations (initStateOf paramsV1 mol rand)
  · exact runSim_count_le (stepOf paramsV2 mol rand) (stopPred paramsV2)
      paramsV2.iterations (initStateOf paramsV2 mol rand)
  · exact runSim_early_iff (stepOf paramsV2 mol rand) (stopPred paramsV2)
      paramsV2.iterations (initStateOf paramsV2 mol rand)

/-- C6 (counterexample to the claim as stated): on a one-atom molecule far
from the origin, the second variant's loop exits early (after fewer than its
800 iterations) even though the maximum squared velocity recorded in the exit
iteration is at least 1000000 — early exit does not require the velocity to
have dropped below any small floor. -/
theorem C6_counterexample :
    (simResult paramsV2 molBig randHalf).2 < 800 ∧
    1000000 ≤ (simResult paramsV2 molBig randHalf).1.maxVelSq := by
  refine ⟨simCountV2_molBig_early, ?_⟩
  have hsim : simResult paramsV2 molBig randHalf
      = runSim (stepState paramsV2 []) (stopPred paramsV2) paramsV2.iterations
        (initStateOf paramsV2 molBig randHalf) := by
    unfold simResult
    rw [stepOf_molBig]
  have hfst := runSim_fst_eq_iterate (stepState paramsV2 []) (stopPred paramsV2)
    paramsV2.iterations (initStateOf paramsV2 molBig randHalf)
  have hpos : 1 ≤ (runSim (stepState paramsV2 []) (stopPred paramsV2)
      paramsV2.iterations (initStateOf paramsV2 molBig randHalf)).2 :=
    runSim_count_pos _ _ _ _ (by norm_num [paramsV2])
  rw [hsim]
  obtain ⟨j, hj⟩ : ∃ j, (runSim (stepState paramsV2 []) (stopPred paramsV2)
      paramsV2.iterations (initStateOf paramsV2 molBig randHalf)).2 = j + 1 :=
    ⟨(runSim (stepState paramsV2 []) (stopPred paramsV2)
      paramsV2.iterations (initStateOf paramsV2 molBig randHalf)).2 - 1, by omega⟩
  rw [hfst, hj]
  exact maxVel_iterate j

/-! ### Centroid facts -/

theorem recentered_sum_zero (l : List ℝ) (hl : l ≠ []) :
    (l.map (fun v => v - l.sum / (l.length : ℝ))).sum = 0 := by
  have hn : (l.length : ℝ) ≠ 0 :=
    Nat.cast_ne_zero.mpr (List.length_pos.mpr hl).ne'
  rw [list_sum_map_sub_const]
  field_simp

/-- C7 (amended): the second variant recenters its output, so the centroid of
the returned atom positions is exactly the origin for every non-empty input;
the first variant returns the raw simulation positions without recentering
(see the counterexample). -/
theorem C7_centroid (mol : Molecule) (rand : ℕ → ℝ) (w h : ℝ)
    (hne : mol.atoms ≠ []) :
    centroidX (autoLayoutMoleculeV2 mol rand w h) = 0 ∧
    centroidY (autoLayoutMoleculeV2 mol rand w h) = 0 ∧
    centroidZ (autoLayoutMoleculeV2 mol rand w h) = 0 := by
  have hlen : (simResult paramsV2 mol rand).1.nodes.length = mol.atoms.length := by
    unfold simResult stepOf
    rw [runSim_nodes_length]
    exact initNodesOf_length paramsV2 mol rand
  have hnodes_ne : (simResult paramsV2 mol rand).1.nodes ≠ [] := by
    intro hcontra
    apply hne
    rw [hcontra] at hlen
    exact List.length_eq_zero.mp hlen.symm
  have hrec : paramsV2.recenter = true := rfl
  simp only [autoLayoutMoleculeV2, autoLayout, if_neg hne, hrec, if_true,
    ite_true]
  set ns := (simResult paramsV2 mol rand).1.nodes with hns
  refine ⟨?_, ?_, ?_⟩
  · unfold centroidX
    simp only [List.map_map]
    have hxs : (ns.map ((fun a => a.x) ∘ (fun n =>
        ({ id := n.id, element := n.element,
           x := n.x - (ns.map (fun n => n.x)).sum / (ns.length : ℝ),
           y := n.y - (ns.map (fun n => n.y)).sum / (ns.length : ℝ),
           z := n.z - (ns.map (fun n => n.z)).sum / (ns.length : ℝ) } : AtomData))))
        = (ns.map (fun n => n.x)).map (fun v => v -
            ((ns.map (fun n => n.x)).sum / ((ns.map (fun n => n.x)).length : ℝ))) := by
      rw [List.map_map]
      simp only [Function.comp, List.length_map]
      rfl
    rw [hxs, recentered_sum_zero _ (by simpa using hnodes_ne)]
    simp
  · unfold centroidY
    simp only [List.map_map]
    have hys : (ns.map ((fun a => a.y) ∘ (fun n =>
        ({ id := n.id, element := n.element,
           x := n.x - (ns.map (fun n => n.x)).sum / (ns.length : ℝ),
           y := n.y - (ns.map (fun n => n.y)).sum / (ns.length : ℝ),
           z := n.z - (ns.map (fun n => n.z)).sum / (ns.length : ℝ) } : AtomData))))
        = (ns.map (fun n => n.y)).map (fun v => v -
            ((ns.map (fun n => n.y)).sum / ((ns.map (fun n => n.y)).length : ℝ))) := by
      rw [List.map_map]
      simp only [Function.comp, List.length_map]
      rfl
    rw [hys, recentered_sum_zero _ (by simpa using hnodes_ne)]
    simp
  · unfold centroidZ
    simp only [List.map_map]
    have hzs : (ns.map ((fun a => a.z) ∘ (fun n =>
        ({ id := n.id, element := n.element,
           x := n.x - (ns.map (fun n => n.x)).sum / (ns.length : ℝ),
           y := n.y - (ns.map (fun n => n.y)).sum / (ns.length : ℝ),
           z := n.z - (ns.map (fun n => n.z)).sum / (ns.length : ℝ) } : AtomData))))
        = (ns.map (fun n => n.z)).map (fun v => v -
            ((ns.map (fun n => n.z)).sum / ((ns.map (fun n => n.z)).length : ℝ))) := by
      rw [List.map_map]
      simp only [Function.comp, List.length_map]
      rfl
    rw [hzs, recentered_sum_zero _ (by simpa using hnodes_ne)]
    simp

theorem initNode_molBig_V1 :
    initNode paramsV1 molBig randHalf 0 atomBig =
      { id := "a", element := "H", x := 1000000, y := 0, z := 0,
        vx := 0, vy := 0, vz := 0, fx := 0, fy := 0, fz := 0 } := by
  have hns : ¬ needsScramble molBig := by
    intro hcon
    have h1 := hcon.1
    simp [molBig] at h1
  rw [initNode, if_neg hns]
  simp [jitteredNode, atomBig, randHalf, zCoord, paramsV1]

/-- C7 (counterexample to the claim as stated): the first variant does not
recenter; on a one-atom molecule placed at x = 1000000 the returned centroid
is far from the origin (the total movement over the whole annealing schedule
is at most 400). -/
theorem C7_counterexample :
    centroidX (autoLayoutMoleculeV1 molBig randHalf 0 0) ≠ 0 := by
  have hlen : (simResult paramsV1 molBig randHalf).1.nodes.length = 1 := by
    unfold simResult stepOf
    rw [runSim_nodes_length]
    have := initNodesOf_length paramsV1 molBig randHalf
    simpa [molBig] using this
  obtain ⟨m, hm⟩ := List.length_eq_one.mp hlen
  have hconv : simResult paramsV1 molBig randHalf
      = runSim (stepState paramsV1 (edgesOf paramsV1 molBig randHalf))
        (stopPred paramsV1) paramsV1.iterations
        (initStateOf paramsV1 molBig randHalf) := rfl
  have hmove := runSim_move paramsV1 (edgesOf paramsV1 molBig randHalf)
    (stopPred paramsV1) (by norm_num [paramsV1]) (by norm_num [paramsV1])
    paramsV1.iterations (initStateOf paramsV1 molBig randHalf)
    (by norm_num [initStateOf, paramsV1]) 0
  rw [← hconv, hm] at hmove
  have hstart : ((initStateOf paramsV1 molBig randHalf).nodes.getD 0
      defaultNode).x = 1000000 := by
    show ((initNodesOf paramsV1 molBig randHalf).getD 0 defaultNode).x
      = 1000000
    rw [show initNodesOf paramsV1 molBig randHalf
      = [initNode paramsV1 molBig randHalf 0 atomBig] from rfl]
    rw [initNode_molBig_V1]
    rfl
  have hget : (([m] : List Node).getD 0 defaultNode) = m := rfl
  rw [hget, hstart] at hmove
  have hb : (initStateOf paramsV1 molBig randHalf).temperature /
      (1 - paramsV1.cooling) = 400 := by
    norm_num [initStateOf, paramsV1]
  rw [hb] at hmove
  have hmx : (999600 : ℝ) ≤ m.x := by
    have := (abs_le.mp hmove).1
    linarith
  have hne : ¬ (molBig.atoms = []) := by simp [molBig]
  have hrec : paramsV1.recenter = false := rfl
  have hout : (autoLayoutMoleculeV1 molBig randHalf 0 0).atoms
      = [{ id := m.id, element := m.element, x := m.x, y := m.y, z := m.z }] := by
    simp only [autoLayoutMoleculeV1, autoLayout, if_neg hne, hrec,
      Bool.false_eq_true, if_false, ite_false]
    rw [hm]
    rfl
  unfold centroidX
  rw [hout]
  simp only [List.map_cons, List.map_nil, List.sum_cons, List.sum_nil,
    List.length_cons, List.length_nil]
  have : m.x + 0 = m.x := by ring
  rw [this]
  intro hzero
  have : m.x = 0 := by
    field_simp at hzero
    exact hzero
  linarith

/-- C2: both variants return exactly as many atoms as the input, and the atom
at each ordinal position keeps the same id and element (an atom record holds
only id, element and the position, so only the position can change). -/
theorem C2_atoms_preserved (mol : Molecule) (rand : ℕ → ℝ) (w h : ℝ) :
    (autoLayoutMoleculeV1 mol rand w h).atoms.map atomKey
      = mol.atoms.map atomKey ∧
    (autoLayoutMoleculeV1 mol rand w h).atoms.length = mol.atoms.length ∧
    (autoLayoutMoleculeV2 mol rand w h).atoms.map atomKey
      = mol.atoms.map atomKey ∧
    (autoLayoutMoleculeV2 mol rand w h).atoms.length = mol.atoms.length :=
  ⟨autoLayout_atoms_idElem paramsV1 mol rand w h,
   autoLayout_atoms_length paramsV1 mol rand w h,
   autoLayout_atoms_idElem paramsV2 mol rand w h,
   autoLayout_atoms_length paramsV2 mol rand w h⟩

/-- C3 (amended): the returned bond list is exactly the input bond list for
both variants — bonds referencing missing atoms are excluded only from the
internal simulated edge set, not from the returned graph. -/
theorem C3_bonds_passthrough (mol : Molecule) (rand : ℕ → ℝ) (w h : ℝ) :
    (autoLayoutMoleculeV1 mol rand w h).bonds = mol.bonds ∧
    (autoLayoutMoleculeV2 mol rand w h).bonds = mol.bonds :=
  ⟨autoLayout_bonds paramsV1 mol rand w h,
   autoLayout_bonds paramsV2 mol rand w h⟩

/-- C3 (counterexample to the claim as stated): a bond whose target id names
no atom is still present in the returned bond list, so the output bond set is
not a subset of the input bonds restricted to existing endpoints. -/
theorem C3_counterexample :
    danglingBond ∈ (autoLayoutMoleculeV1 molDangling randHalf 0 0).bonds ∧
    danglingBond.targetAtomId ∉ atomIds molDangling := by
  constructor
  · rw [show autoLayoutMoleculeV1 molDangling randHalf 0 0
      = autoLayout paramsV1 molDangling randHalf 0 0 from rfl,
      autoLayout_bonds paramsV1 molDangling randHalf 0 0]
    simp [molDangling]
  · simp [danglingBond, molDangling, atomIds]

theorem initNodesGo_eq_scramble (p : LayoutParams) (mol : Molecule)
    (rand : ℕ → ℝ) (hs : needsScramble mol) :
    ∀ (l : List AtomData) (i : ℕ),
    initNodesGo p mol rand i l = scrambleNodesGo p mol i l := by
  intro l
  induction l with
  | nil => intro i; rfl
  | cons a rest ih =>
    intro i
    simp only [initNodesGo, scrambleNodesGo, initNode, if_pos hs, ih]

theorem initNodesGo_eq_jitter (p : LayoutParams) (mol : Molecule)
    (rand : ℕ → ℝ) (hn : ¬ needsScramble mol) :
    ∀ (l : List AtomData) (i : ℕ),
    initNodesGo p mol rand i l = jitterNodesGo p rand i l := by
  intro l
  induction l with
  | nil => intro i; rfl
  | cons a rest ih =>
    intro i
    simp only [initNodesGo, jitterNodesGo, initNode, if_neg hn, ih]

/-- C4: for a non-empty input, the scramble branch is taken exactly when the
atom count exceeds 2 and the z-range (max minus min of the z coordinates) is
below 0.5; in every other case the micro-jitter branch is taken. -/
theorem C4_branch_condition (mol : Molecule) (rand : ℕ → ℝ)
    (hne : mol.atoms ≠ []) :
    (needsScramble mol ↔ 2 < mol.atoms.length ∧ zRangeOf mol < 0.5) ∧
    (needsScramble mol →
      initNodesOf paramsV1 mol rand = scrambleNodesOf paramsV1 mol ∧
      initNodesOf paramsV2 mol rand = scrambleNodesOf paramsV2 mol) ∧
    (¬ needsScramble mol →
      initNodesOf paramsV1 mol rand = jitterNodesOf paramsV1 mol rand ∧
      initNodesOf paramsV2 mol rand = jitterNodesOf paramsV2 mol rand) := by
  refine ⟨Iff.rfl, fun hs => ⟨?_, ?_⟩, fun hn => ⟨?_, ?_⟩⟩
  · exact initNodesGo_eq_scramble paramsV1 mol rand hs mol.atoms 0
  · exact initNodesGo_eq_scramble paramsV2 mol rand hs mol.atoms 0
  · exact initNodesGo_eq_jitter paramsV1 mol rand hn mol.atoms 0
  · exact initNodesGo_eq_jitter paramsV2 mol rand hn mol.atoms 0

/-- Witness for C4 at a concrete flat three-atom molecule. -/
theorem C4_branch_condition_witness :
    molFlat.atoms ≠ [] ∧
    ((needsScramble molFlat ↔
        2 < molFlat.atoms.length ∧ zRangeOf molFlat < 0.5) ∧
     (needsScramble molFlat →
       initNodesOf paramsV1 molFlat randZero = scrambleNodesOf paramsV1 molFlat ∧
       initNodesOf paramsV2 molFlat randZero = scrambleNodesOf paramsV2 molFlat) ∧
     (¬ needsScramble molFlat →
       initNodesOf paramsV1 molFlat randZero
         = jitterNodesOf paramsV1 molFlat randZero ∧
       initNodesOf paramsV2 molFlat randZero
         = jitterNodesOf paramsV2 molFlat randZero)) :=
  ⟨by simp [molFlat], C4_branch_condition molFlat randZero (by simp [molFlat])⟩

/-- C10: when the scramble condition holds, neither variant consults the
random stream — the output is a deterministic function of the input graph. -/
theorem C10_scramble_deterministic (mol : Molecule) (r1 r2 : ℕ → ℝ) (w h : ℝ)
    (hs : needsScramble mol) :
    autoLayoutMoleculeV1 mol r1 w h = autoLayoutMoleculeV1 mol r2 w h ∧
    autoLayoutMoleculeV2 mol r1 w h = autoLayoutMoleculeV2 mol r2 w h := by
  have hinit : ∀ p : LayoutParams, initNodesOf p mol r1 = initNodesOf p mol r2 := by
    intro p
    unfold initNodesOf
    rw [initNodesGo_scramble p mol r1 hs mol.atoms 0,
      initNodesGo_scramble p mol r2 hs mol.atoms 0]
  constructor
  · simp only [autoLayoutMoleculeV1, autoLayout, simResult, stepOf, edgesOf,
      initStateOf, hinit paramsV1]
  · simp only [autoLayoutMoleculeV2, autoLayout, simResult, stepOf, edgesOf,
      initStateOf, hinit paramsV2]

/-- Scramble condition holds for the concrete flat three-atom molecule. -/
theorem needsScramble_molFlat : needsScramble molFlat := by
  constructor
  · simp [molFlat]
  · simp [zRangeOf, molFlat, zCoord, listMax, listMin]
    norm_num

/-- Witness for C10 at a concrete flat three-atom molecule and two distinct
random streams. -/
theorem C10_scramble_deterministic_witness :
    needsScramble molFlat ∧
    (autoLayoutMoleculeV1 molFlat randZero 0 0
      = autoLayoutMoleculeV1 molFlat randHalf 0 0 ∧
     autoLayoutMoleculeV2 molFlat randZero 0 0
      = autoLayoutMoleculeV2 molFlat randHalf 0 0) :=
  ⟨needsScramble_molFlat,
   C10_scramble_deterministic molFlat randZero randHalf 0 0 needsScramble_molFlat⟩

/-- C8: every divisor of the force computations is bounded away from zero.
The repulsion divisor is the squared distance floored at the variant's
epsilon (0.01 and 0.1), its square root is therefore positive, and the spring
divisor `sqrt(...) || 0.1` is positive for every (nonnegative-radicand)
square root. -/
theorem C8_no_zero_divisors (dSq d : ℝ) :
    0.01 ≤ flooredDistSq paramsV1.epsSq dSq ∧
    0.1 ≤ flooredDistSq paramsV2.epsSq dSq ∧
    0 < Real.sqrt (flooredDistSq paramsV1.epsSq dSq) ∧
    0 < Real.sqrt (flooredDistSq paramsV2.epsSq dSq) ∧
    0 < safeBondDist (Real.sqrt d) := by
  have hfloor : ∀ e x : ℝ, e ≤ flooredDistSq e x := by
    intro e x
    unfold flooredDistSq
    split
    · exact le_refl e
    next hge => push_neg at hge; exact hge
  have h1 : (0.01 : ℝ) ≤ flooredDistSq paramsV1.epsSq dSq := hfloor 0.01 dSq
  have h2 : (0.1 : ℝ) ≤ flooredDistSq paramsV2.epsSq dSq := hfloor 0.1 dSq
  refine ⟨h1, h2, ?_, ?_, ?_⟩
  · exact Real.sqrt_pos.mpr (lt_of_lt_of_le (by norm_num) h1)
  · exact Real.sqrt_pos.mpr (lt_of_lt_of_le (by norm_num) h2)
  · unfold safeBondDist
    split
    · norm_num
    next hne => exact lt_of_le_of_ne (Real.sqrt_nonneg d) (Ne.symm hne)

/-! ### Distinctness of the scramble positions -/

theorem scramble_y_inj (p : LayoutParams) (mol : Molecule) (hr : 0 < p.radius)
    (h2 : 2 < mol.atoms.length) (i j : ℕ) (hij : i ≠ j) (a b : AtomData) :
    (scrambledNode p mol i a).y ≠ (scrambledNode p mol j b).y := by
  intro hcon
  simp only [scrambledNode] at hcon
  have hn3 : (3 : ℝ) ≤ (mol.atoms.length : ℝ) := by exact_mod_cast h2
  have hden : ((mol.atoms.length : ℝ) - 1) ≠ 0 := by linarith
  have hRne : p.radius ≠ 0 := ne_of_gt hr
  have h3 := mul_right_cancel₀ hRne hcon
  have h4 : (i : ℝ) / ((mol.atoms.length : ℝ) - 1)
      = (j : ℝ) / ((mol.atoms.length : ℝ) - 1) := by linarith
  have h5 : i = j := by
    field_simp at h4
    exact_mod_cast h4
  exact hij h5

theorem initNodesOf_get_scramble (p : LayoutParams) (mol : Molecule)
    (rand : ℕ → ℝ) (hs : needsScramble mol)
    (i : Fin (initNodesOf p mol rand).length) :
    (initNodesOf p mol rand).get i
      = scrambledNode p mol i.val (mol.atoms.getD i.val defaultAtom) := by
  have hi : i.val < mol.atoms.length := by
    have hlen := initNodesOf_length p mol rand
    have := i.isLt
    omega
  have hgd := initNodesOf_getD p mol rand i.val hi
  rw [initNode, if_pos hs] at hgd
  rw [← hgd, List.get_eq_getElem, List.getD_eq_getElem _ _ i.isLt]

theorem initNodes_scramble_pairwise (p : LayoutParams) (mol : Molecule)
    (rand : ℕ → ℝ) (hs : needsScramble mol) (hr : 0 < p.radius) :
    (initNodesOf p mol rand).Pairwise
      (fun a b => ¬ (a.x = b.x ∧ a.y = b.y ∧ a.z = b.z)) := by
  rw [List.pairwise_iff_get]
  intro i j hij hcon
  have hga := initNodesOf_get_scramble p mol rand hs i
  have hgb := initNodesOf_get_scramble p mol rand hs j
  have hy := hcon.2.1
  rw [hga, hgb] at hy
  exact scramble_y_inj p mol hr hs.1 i.val j.val (Nat.ne_of_lt hij) _ _ hy

/-- Under the scramble condition, the initializer of any variant assigns the
golden-angle spherical coordinates scaled by that variant's radius. -/
theorem initNodesOf_scramble_coords (p : LayoutParams) (mol : Molecule)
    (rand : ℕ → ℝ) (hs : needsScramble mol) (i : ℕ)
    (hi : i < mol.atoms.length) :
    ((initNodesOf p mol rand).getD i defaultNode).x
        = Real.cos ((i : ℝ) * 2.39996) *
          Real.sqrt (1 - (1 - ((i : ℝ) / ((mol.atoms.length : ℝ) - 1)) * 2) ^ 2)
          * p.radius ∧
      ((initNodesOf p mol rand).getD i defaultNode).y
        = (1 - ((i : ℝ) / ((mol.atoms.length : ℝ) - 1)) * 2) * p.radius ∧
      ((initNodesOf p mol rand).getD i defaultNode).z
        = Real.sin ((i : ℝ) * 2.39996) *
          Real.sqrt (1 - (1 - ((i : ℝ) / ((mol.atoms.length : ℝ) - 1)) * 2) ^ 2)
          * p.radius := by
  have hgd := initNodesOf_getD p mol rand i hi
  rw [initNode, if_pos hs] at hgd
  rw [hgd]
  have hsq : 1 - (1 - ((i : ℝ) / ((mol.atoms.length : ℝ) - 1)) * 2) *
      (1 - ((i : ℝ) / ((mol.atoms.length : ℝ) - 1)) * 2)
      = 1 - (1 - ((i : ℝ) / ((mol.atoms.length : ℝ) - 1)) * 2) ^ 2 := by
    ring
  refine ⟨?_, ?_, ?_⟩
  · simp only [scrambledNode]
    rw [hsq]
  · simp only [scrambledNode]
  · simp only [scrambledNode]
    rw [hsq]

/-- C5: when the scramble branch is taken, atom `i` of `n` is placed at
`x = cos(i*2.39996) * sqrt(1 - y_sphere^2) * R`, `y = y_sphere * R`,
`z = sin(i*2.39996) * sqrt(1 - y_sphere^2) * R` with
`y_sphere = 1 - (i/(n-1))*2`, in both variants; the radius R is 5 in the
first variant and 4 in the second (both within 4..5), and the scrambled
points are pairwise distinct. -/
theorem C5_scramble_formula (mol : Molecule) (rand : ℕ → ℝ)
    (h2 : 2 < mol.atoms.length) (hzr : zRangeOf mol < 0.5) :
    (∀ i : ℕ, i < mol.atoms.length →
      ((initNodesOf paramsV1 mol rand).getD i defaultNode).x
          = Real.cos ((i : ℝ) * 2.39996) *
            Real.sqrt (1 - (1 - ((i : ℝ) / ((mol.atoms.length : ℝ) - 1)) * 2) ^ 2)
            * 5 ∧
        ((initNodesOf paramsV1 mol rand).getD i defaultNode).y
          = (1 - ((i : ℝ) / ((mol.atoms.length : ℝ) - 1)) * 2) * 5 ∧
        ((initNodesOf paramsV1 mol rand).getD i defaultNode).z
          = Real.sin ((i : ℝ) * 2.39996) *
            Real.sqrt (1 - (1 - ((i : ℝ) / ((mol.atoms.length : ℝ) - 1)) * 2) ^ 2)
            * 5) ∧
    (∀ i : ℕ, i < mol.atoms.length →
      ((initNodesOf paramsV2 mol rand).getD i defaultNode).x
          = Real.cos ((i : ℝ) * 2.39996) *
            Real.sqrt (1 - (1 - ((i : ℝ) / ((mol.atoms.length : ℝ) - 1)) * 2) ^ 2)
            * 4 ∧
        ((initNodesOf paramsV2 mol rand).getD i defaultNode).y
          = (1 - ((i : ℝ) / ((mol.atoms.length : ℝ) - 1)) * 2) * 4 ∧
        ((initNodesOf paramsV2 mol rand).getD i defaultNode).z
          = Real.sin ((i : ℝ) * 2.39996) *
            Real.sqrt (1 - (1 - ((i : ℝ) / ((mol.atoms.length : ℝ) - 1)) * 2) ^ 2)
            * 4) ∧
    (4 ≤ paramsV1.radius ∧ paramsV1.radius ≤ 5 ∧
     4 ≤ paramsV2.radius ∧ paramsV2.radius ≤ 5) ∧
    (initNodesOf paramsV1 mol rand).Pairwise
      (fun a b => ¬ (a.x = b.x ∧ a.y = b.y ∧ a.z = b.z)) ∧
    (initNodesOf paramsV2 mol rand).Pairwise
      (fun a b => ¬ (a.x = b.x ∧ a.y = b.y ∧ a.z = b.z)) := by
  have hs : needsScramble mol := ⟨h2, hzr⟩
  refine ⟨?_, ?_, ⟨by norm_num [paramsV1], by norm_num [paramsV1],
    by norm_num [paramsV2], by norm_num [paramsV2]⟩,
    initNodes_scramble_pairwise paramsV1 mol rand hs (by norm_num [paramsV1]),
    initNodes_scramble_pairwise paramsV2 mol rand hs (by norm_num [paramsV2])⟩
  · intro i hi
    have h := initNodesOf_scramble_coords paramsV1 mol rand hs i hi
    have hrad : paramsV1.radius = 5 := by norm_num [paramsV1]
    rw [hrad] at h
    exact h
  · intro i hi
    have h := initNodesOf_scramble_coords paramsV2 mol rand hs i hi
    have hrad : paramsV2.radius = 4 := by norm_num [paramsV2]
    rw [hrad] at h
    exact h

/-- Witness for C5 at a concrete flat three-atom molecule. -/
theorem C5_scramble_formula_witness :
    2 < molFlat.atoms.length ∧ zRangeOf molFlat < 0.5 ∧
    ((∀ i : ℕ, i < molFlat.atoms.length →
      ((initNodesOf paramsV1 molFlat randZero).getD i defaultNode).x
          = Real.cos ((i : ℝ) * 2.39996) *
            Real.sqrt (1 - (1 - ((i : ℝ) / ((molFlat.atoms.length : ℝ) - 1)) * 2) ^ 2)
            * 5 ∧
        ((initNodesOf paramsV1 molFlat randZero).getD i defaultNode).y
          = (1 - ((i : ℝ) / ((molFlat.atoms.length : ℝ) - 1)) * 2) * 5 ∧
        ((initNodesOf paramsV1 molFlat randZero).getD i defaultNode).z
          = Real.sin ((i : ℝ) * 2.39996) *
            Real.sqrt (1 - (1 - ((i : ℝ) / ((molFlat.atoms.length : ℝ) - 1)) * 2) ^ 2)
            * 5) ∧
    (∀ i : ℕ, i < molFlat.atoms.length →
      ((initNodesOf paramsV2 molFlat randZero).getD i defaultNode).x
          = Real.cos ((i : ℝ) * 2.39996) *
            Real.sqrt (1 - (1 - ((i : ℝ) / ((molFlat.atoms.length : ℝ) - 1)) * 2) ^ 2)
            * 4 ∧
        ((initNodesOf paramsV2 molFlat randZero).getD i defaultNode).y
          = (1 - ((i : ℝ) / ((molFlat.atoms.length : ℝ) - 1)) * 2) * 4 ∧
        ((initNodesOf paramsV2 molFlat randZero).getD i defaultNode).z
          = Real.sin ((i : ℝ) * 2.39996) *
            Real.sqrt (1 - (1 - ((i : ℝ) / ((molFlat.atoms.length : ℝ) - 1)) * 2) ^ 2)
            * 4) ∧
    (4 ≤ paramsV1.radius ∧ paramsV1.radius ≤ 5 ∧
     4 ≤ paramsV2.radius ∧ paramsV2.radius ≤ 5) ∧
    (initNodesOf paramsV1 molFlat randZero).Pairwise
      (fun a b => ¬ (a.x = b.x ∧ a.y = b.y ∧ a.z = b.z)) ∧
    (initNodesOf paramsV2 molFlat randZero).Pairwise
      (fun a b => ¬ (a.x = b.x ∧ a.y = b.y ∧ a.z = b.z))) :=
  ⟨by simp [molFlat], needsScramble_molFlat.2,
   C5_scramble_formula molFlat randZero (by simp [molFlat])
     needsScramble_molFlat.2⟩

/-! ### The simulated edge set drops bonds with missing endpoints -/

theorem findIndexOfId_nonneg_or : ∀ (ns : List Node) (aid : String),
    findIndexOfId ns aid = -1 ∨ 0 ≤ findIndexOfId ns aid := by
  intro ns
  induction ns with
  | nil => intro aid; exact Or.inl rfl
  | cons n rest ih =>
    intro aid
    simp only [findIndexOfId]
    by_cases h : n.id = aid
    · rw [if_pos h]
      exact Or.inr (by norm_num)
    · rw [if_neg h]
      rcases ih aid with hr | hr
      · rw [if_pos hr]
        exact Or.inl rfl
      · by_cases h1 : findIndexOfId rest aid = -1
        · rw [if_pos h1]
          exact Or.inl rfl
        · rw [if_neg h1]
          exact Or.inr (by omega)

theorem findIndexOfId_eq_neg_one_iff : ∀ (ns : List Node) (aid : String),
    findIndexOfId ns aid = -1 ↔ aid ∉ ns.map (fun n => n.id) := by
  intro ns
  induction ns with
  | nil => intro aid; simp [findIndexOfId]
  | cons n rest ih =>
    intro aid
    simp only [findIndexOfId, List.map_cons, List.mem_cons]
    by_cases h : n.id = aid
    · rw [if_pos h]
      constructor
      · intro h0; exact absurd h0 (by norm_num)
      · intro hnot; exact absurd (Or.inl h.symm) hnot
    · rw [if_neg h]
      by_cases hr : findIndexOfId rest aid = -1
      · rw [if_pos hr]
        constructor
        · intro _ hcon
          rcases hcon with hcon | hcon
          · exact h hcon.symm
          · exact ((ih aid).mp hr) hcon
        · intro _; rfl
      · rw [if_neg hr]
        have hge : 0 ≤ findIndexOfId rest aid :=
          (findIndexOfId_nonneg_or rest aid).resolve_left hr
        constructor
        · intro hcon; omega
        · intro hnot
          exact absurd ((ih aid).mpr (fun hm => hnot (Or.inr hm))) hr

theorem initNodesOf_ids (p : LayoutParams) (mol : Molecule) (rand : ℕ → ℝ) :
    (initNodesOf p mol rand).map (fun n => n.id) = atomIds mol := by
  have h := congrArg (List.map Prod.fst) (initNodesOf_idElemOf p mol rand)
  simpa [List.map_map, Function.comp, atomIds, idElemOf, atomKey] using h

theorem findIndex_bne_eq_decide (p : LayoutParams) (mol : Molecule)
    (rand : ℕ → ℝ) (aid : String) :
    (findIndexOfId (initNodesOf p mol rand) aid != -1)
      = decide (aid ∈ atomIds mol) := by
  by_cases hmem : aid ∈ atomIds mol
  · have hmem2 : aid ∈ (initNodesOf p mol rand).map (fun n => n.id) := by
      rw [initNodesOf_ids]; exact hmem
    have hne : findIndexOfId (initNodesOf p mol rand) aid ≠ -1 :=
      fun hcon => ((findIndexOfId_eq_neg_one_iff _ aid).mp hcon) hmem2
    simp [hne, hmem]
  · have heq : findIndexOfId (initNodesOf p mol rand) aid = -1 :=
      (findIndexOfId_eq_neg_one_iff _ aid).mpr (by
        rw [initNodesOf_ids]; exact hmem)
    simp [heq, hmem]

/-- The simulated edge set is exactly the per-bond edge of those bonds whose
two endpoint ids exist among the atoms. -/
theorem edgesOf_eq_filter (p : LayoutParams) (mol : Molecule) (rand : ℕ → ℝ) :
    edgesOf p mol rand
      = (mol.bonds.filter (bothEndpointsPresent mol)).map (fun b =>
          { source := findIndexOfId (initNodesOf p mol rand) b.sourceAtomId,
            target := findIndexOfId (initNodesOf p mol rand) b.targetAtomId,
            len := restLength p b.order : Edge }) := by
  unfold edgesOf mkEdges
  rw [List.filter_map]
  congr 1
  apply List.filter_congr
  intro b _
  show (findIndexOfId (initNodesOf p mol rand) b.sourceAtomId != -1 &&
        findIndexOfId (initNodesOf p mol rand) b.targetAtomId != -1)
      = bothEndpointsPresent mol b
  rw [findIndex_bne_eq_decide, findIndex_bne_eq_decide]
  rfl

/-- C9: a bond referencing a missing atom id contributes nothing to the
simulated edge set of either variant (which consists exactly of the edges of
the bonds whose endpoints both exist), and the call still returns a full
graph. -/
theorem C9_dangling_excluded (mol : Molecule) (rand : ℕ → ℝ) (b : BondData)
    (hb : b ∈ mol.bonds)
    (hmiss : b.sourceAtomId ∉ atomIds mol ∨ b.targetAtomId ∉ atomIds mol) :
    bothEndpointsPresent mol b = false ∧
    edgesOf paramsV1 mol rand
      = (mol.bonds.filter (bothEndpointsPresent mol)).map (fun b2 =>
          { source := findIndexOfId (initNodesOf paramsV1 mol rand) b2.sourceAtomId,
            target := findIndexOfId (initNodesOf paramsV1 mol rand) b2.targetAtomId,
            len := restLength paramsV1 b2.order : Edge }) ∧
    edgesOf paramsV2 mol rand
      = (mol.bonds.filter (bothEndpointsPresent mol)).map (fun b2 =>
          { source := findIndexOfId (initNodesOf paramsV2 mol rand) b2.sourceAtomId,
            target := findIndexOfId (initNodesOf paramsV2 mol rand) b2.targetAtomId,
            len := restLength paramsV2 b2.order : Edge }) ∧
    (∀ w h : ℝ,
      (autoLayoutMoleculeV1 mol rand w h).atoms.length = mol.atoms.length) ∧
    (∀ w h : ℝ,
      (autoLayoutMoleculeV2 mol rand w h).atoms.length = mol.atoms.length) := by
  refine ⟨?_, edgesOf_eq_filter paramsV1 mol rand,
    edgesOf_eq_filter paramsV2 mol rand,
    fun w h => autoLayout_atoms_length paramsV1 mol rand w h,
    fun w h => autoLayout_atoms_length paramsV2 mol rand w h⟩
  unfold bothEndpointsPresent
  rcases hmiss with hm | hm <;> simp [hm]

/-- Witness for C9 at a concrete molecule with one dangling bond. -/
theorem C9_dangling_excluded_witness :
    danglingBond ∈ molDangling.bonds ∧
    (danglingBond.sourceAtomId ∉ atomIds molDangling ∨
     danglingBond.targetAtomId ∉ atomIds molDangling) ∧
    (bothEndpointsPresent molDangling danglingBond = false ∧
     edgesOf paramsV1 molDangling randZero
       = (molDangling.bonds.filter (bothEndpointsPresent molDangling)).map
           (fun b2 =>
            { source := findIndexOfId (initNodesOf paramsV1 molDangling randZero)
                b2.sourceAtomId,
              target := findIndexOfId (initNodesOf paramsV1 molDangling randZero)
                b2.targetAtomId,
              len := restLength paramsV1 b2.order : Edge }) ∧
     edgesOf paramsV2 molDangling randZero
       = (molDangling.bonds.filter (bothEndpointsPresent molDangling)).map
           (fun b2 =>
            { source := findIndexOfId (initNodesOf paramsV2 molDangling randZero)
                b2.sourceAtomId,
              target := findIndexOfId (initNodesOf paramsV2 molDangling randZero)
                b2.targetAtomId,
              len := restLength paramsV2 b2.order : Edge }) ∧
     (∀ w h : ℝ, (autoLayoutMoleculeV1 molDangling randZero w h).atoms.length
        = molDangling.atoms.length) ∧
     (∀ w h : ℝ, (autoLayoutMoleculeV2 molDangling randZero w h).atoms.length
        = molDangling.atoms.length)) :=
  ⟨by simp [molDangling],
   Or.inr (by simp [danglingBond, molDangling, atomIds]),
   C9_dangling_excluded molDangling randZero danglingBond
     (by simp [molDangling])
     (Or.inr (by simp [danglingBond, molDangling, atomIds]))⟩

/-- Witness for the amended C7 at a concrete one-atom molecule. -/
theorem C7_centroid_witness :
    molBig.atoms ≠ [] ∧
    (centroidX (autoLayoutMoleculeV2 molBig randZero 1 2) = 0 ∧
     centroidY (autoLayoutMoleculeV2 molBig randZero 1 2) = 0 ∧
     centroidZ (autoLayoutMoleculeV2 molBig randZero 1 2) = 0) :=
  ⟨by simp [molBig], C7_centroid molBig randZero 1 2 (by simp [molBig])⟩

end ChemReact3D
